import Mathlib

/-!
Shallow embedding of the cab-driver reinforcement-learning environment
from cab_environment.py, together with theorems checking the written
specification of the repository against the code.

Conventions of the embedding:
* A state is a triple (current_location, current_hour, current_day) of
  naturals; an action is a pair (pick_up_location, drop_location).
* The travel-time matrix (loaded from disk in the source) is modelled as a
  total function TimeMatrix on the already 0-based indices; all claims
  about the transition engine restrict locations to [1, m], where Nat
  subtraction by 1 agrees with Python int subtraction.
* The hyperparameters C (cost per hour) and R (revenue per hour) are
  naturals; rewards live in Int because they can be negative.
* For the defensive-lookup claim the 4-D NumPy indexing is modelled
  separately and faithfully over Int indices, including the NumPy
  negative-index semantics, as table_lookup below.
* Randomness (the Poisson draw and the uniform index draws of
  np.random.choice) is modelled as explicit inputs: the Poisson outcome is
  a natural n, and the stream of uniform draws is a function rng with the
  k-th draw from a range of size s modelled as rng k % s.
-/

/-- TimeMatrix models the 4-D numeric array time_matrix of the source,
indexed (from_zero_based, to_zero_based, hour, day), with whole-hour
non-negative entries. -/
abbrev TimeMatrix : Type := Nat → Nat → Nat → Nat → Nat

/-- Source function calc_revised_time_day of cab_environment.py: if the
hour value reached 24 or more, subtract 24 once and advance the day of the
week, wrapping day 6 to day 0. -/
def calc_revised_time_day (time_of_day : Nat) (day_of_week : Nat) : Nat × Nat :=
  if 24 ≤ time_of_day then
    (time_of_day - 24, if day_of_week = 6 then 0 else day_of_week + 1)
  else
    (time_of_day, day_of_week)

/-- Source function get_same_pickup_time: total trip time when the current
location equals the pickup location is time_matrix[from-1][to-1][hour][day],
and the travel time to the customer is 0. -/
def get_same_pickup_time (tm : TimeMatrix) (state : Nat × Nat × Nat)
    (action : Nat × Nat) : Nat × Nat :=
  let current_hour := state.2.1
  let current_day := state.2.2
  let location_from := action.1
  let location_to := action.2
  (tm (location_from - 1) (location_to - 1) current_hour current_day, 0)

/-- Source function get_different_pickup_time: travel time to the customer
is looked up at the current clock, the clock is advanced to the customer
location, and the trip time is looked up at that revised clock. Returns
(total_trip_time, travel_time_to_customer, time_at_customer_location,
day_at_customer_location). -/
def get_different_pickup_time (tm : TimeMatrix) (state : Nat × Nat × Nat)
    (action : Nat × Nat) : Nat × Nat × Nat × Nat :=
  let current_location := state.1
  let current_hour := state.2.1
  let current_day := state.2.2
  let location_from := action.1
  let location_to := action.2
  let travel_time_to_customer :=
    tm (current_location - 1) (location_from - 1) current_hour current_day
  let revised := calc_revised_time_day (current_hour + travel_time_to_customer) current_day
  let time_at_customer_location := revised.1
  let day_at_customer_location := revised.2
  let total_trip_time :=
    tm (location_from - 1) (location_to - 1) time_at_customer_location day_at_customer_location
  (total_trip_time, travel_time_to_customer, time_at_customer_location, day_at_customer_location)

/-- Source function get_rewards_per_ride: minus C for the no-ride action,
and otherwise R times the trip time minus C times trip time plus travel
time to the customer, where the two times come from get_same_pickup_time
or get_different_pickup_time according to the pickup location. -/
def get_rewards_per_ride (C R : Nat) (tm : TimeMatrix) (state : Nat × Nat × Nat)
    (action : Nat × Nat) : Int :=
  let current_location := state.1
  let location_from := action.1
  if action = ((0, 0) : Nat × Nat) then
    -(C : Int)
  else
    let times :=
      if current_location = location_from then
        get_same_pickup_time tm state action
      else
        let r := get_different_pickup_time tm state action
        (r.1, r.2.1)
    (R : Int) * (times.1 : Int) - (C : Int) * ((times.1 : Int) + (times.2 : Int))

/-- Source function get_next_state: computes the next state, the reward
(via get_rewards_per_ride) and the total ride time for a state and an
action, branching on the no-ride action and on whether the pickup location
equals the current location. -/
def get_next_state (C R : Nat) (tm : TimeMatrix) (state : Nat × Nat × Nat)
    (action : Nat × Nat) : (Nat × Nat × Nat) × Int × Nat :=
  let current_location := state.1
  let current_hour := state.2.1
  let current_day := state.2.2
  let location_from := action.1
  let location_to := action.2
  let total_rewards := get_rewards_per_ride C R tm state action
  if action = ((0, 0) : Nat × Nat) then
    let revised := calc_revised_time_day (current_hour + 1) current_day
    ((current_location, revised.1, revised.2), total_rewards, 1)
  else if current_location = location_from then
    let total_trip_time := (get_same_pickup_time tm state action).1
    let trip_end := calc_revised_time_day (current_hour + total_trip_time) current_day
    ((location_to, trip_end.1, trip_end.2), total_rewards, total_trip_time)
  else
    let r := get_different_pickup_time tm state action
    let trip_end := calc_revised_time_day (r.2.2.1 + r.1) r.2.2.2
    ((location_to, trip_end.1, trip_end.2), total_rewards, r.1 + r.2.1)

/-- Source function initialize_action_space: the comprehension over pickup
locations 1..m (ascending) and drop locations 1..m (ascending) skipping
equal pairs, with the no-ride sentinel (0, 0) appended last. -/
def initialize_action_space (m : Nat) : List (Nat × Nat) :=
  ((List.range' 1 m).flatMap fun i =>
    (List.range' 1 m).filterMap fun j => if i ≠ j then some (i, j) else none)
  ++ [(0, 0)]

/-- Source list distribution_lambda of get_requests_per_location: the fixed
per-location Poisson rates. -/
def distribution_lambda : List Nat := [2, 12, 4, 7, 8]

/-- Model of the rate lookup distribution_lambda[current_location - 1]
performed by get_requests_per_location, with Python list bounds checking
for a non-negative index: the access succeeds exactly when the index is
below the list length. -/
def poisson_rate (current_location : Nat) : Option Nat :=
  distribution_lambda.get? (current_location - 1)

/-- Source function get_requests_per_location, with its two random sources
made explicit: poisson_draw is the outcome of the Poisson draw, and rng is
the stream of uniform draws of np.random.choice, the k-th draw from a range
of size s modelled as rng k % s. The draw count is capped at 15, indices are
drawn from the action space without its last (sentinel) element, and the
sentinel action is appended to the selected actions. -/
def get_requests_per_location (action_space : List (Nat × Nat)) (poisson_draw : Nat)
    (rng : Nat → Nat) : List Nat × List (Nat × Nat) :=
  let total_possible_requests := if poisson_draw > 15 then 15 else poisson_draw
  let total_action_space := action_space.dropLast
  let allowed_action_index :=
    (List.range total_possible_requests).map fun k => rng k % total_action_space.length
  let allowed_actions := allowed_action_index.map fun i => total_action_space.getD i (0, 0)
  (allowed_action_index, allowed_actions ++ [(0, 0)])

/-- NumPy basic indexing along one axis of length n: an index i is valid
when -n ≤ i < n, a negative i silently addressing element n + i counted
from the end; anything else is an index error (modelled as none). -/
def np_index (n : Nat) (i : Int) : Option Nat :=
  if 0 ≤ i ∧ i < (n : Int) then some i.toNat
  else if -(n : Int) ≤ i ∧ i < 0 then some ((n : Int) + i).toNat
  else none

/-- Faithful bounds-checked model of the 4-D access
time_matrix[location_from - 1][location_to - 1][hour][day] performed by
get_same_pickup_time and get_different_pickup_time, over Int indices and
with NumPy indexing semantics on each axis of the shape m x m x 24 x 7. -/
def table_lookup (m : Nat) (tm : TimeMatrix) (location_from location_to hour day : Int) :
    Option Nat := do
  let i ← np_index m (location_from - 1)
  let j ← np_index m (location_to - 1)
  let h ← np_index 24 hour
  let d ← np_index 7 day
  pure (tm i j h d)

/-- TimeWheel.advance as the specification states it: add delta_hours to
the hour; if the result reaches 24, subtract 24 and advance the day modulo
7, otherwise leave the day unchanged. -/
def advance (hour day delta_hours : Nat) : Nat × Nat :=
  if 24 ≤ hour + delta_hours then (hour + delta_hours - 24, (day + 1) % 7)
  else (hour + delta_hours, day)

/-- TravelTimeTable.lookup as the specification states it: 1-based
locations converted to 0-based indices into the matrix. -/
def lookup (tm : TimeMatrix) (location_from location_to hour day : Nat) : Nat :=
  tm (location_from - 1) (location_to - 1) hour day

/-! Helper lemmas shared by the claim theorems. -/

/-- On a day within range, the specified TimeWheel rule coincides with the
source function calc_revised_time_day applied to the summed hour. -/
theorem advance_eq_calc (h d delta : Nat) (hd : d ≤ 6) :
    advance h d delta = calc_revised_time_day (h + delta) d := by
  unfold advance calc_revised_time_day
  split
  · refine Prod.ext rfl ?_
    split <;> omega
  · rfl

/-- The day produced by calc_revised_time_day stays within range. -/
theorem calc_day_le (t d : Nat) (hd : d ≤ 6) : (calc_revised_time_day t d).2 ≤ 6 := by
  unfold calc_revised_time_day
  split
  · simp only
    split <;> omega
  · exact hd

/-- The hour produced by calc_revised_time_day stays within range provided
the input hour value is below 47. -/
theorem calc_hour_le (t d : Nat) (ht : t ≤ 46) : (calc_revised_time_day t d).1 ≤ 23 := by
  unfold calc_revised_time_day
  split <;> simp only <;> omega

/-- Branch reduction of get_next_state for the no-ride sentinel action. -/
theorem get_next_state_sentinel (C R : Nat) (tm : TimeMatrix) (l h d : Nat) :
    get_next_state C R tm (l, h, d) (0, 0) =
      ((l, (calc_revised_time_day (h + 1) d).1, (calc_revised_time_day (h + 1) d).2),
        -(C : Int), 1) := rfl

/-- Branch reduction of get_next_state when the pickup location equals the
current location. -/
theorem get_next_state_same (C R : Nat) (tm : TimeMatrix) (l h d q : Nat)
    (hl : 1 ≤ l) :
    get_next_state C R tm (l, h, d) (l, q) =
      ((q, (calc_revised_time_day (h + tm (l - 1) (q - 1) h d) d).1,
            (calc_revised_time_day (h + tm (l - 1) (q - 1) h d) d).2),
        (R : Int) * (tm (l - 1) (q - 1) h d : Int) -
          (C : Int) * ((tm (l - 1) (q - 1) h d : Int) + (0 : Int)),
        tm (l - 1) (q - 1) h d) := by
  have h0 : ((l, q) : Nat × Nat) ≠ ((0, 0) : Nat × Nat) := by
    intro hc
    rw [Prod.ext_iff] at hc
    omega
  unfold get_next_state get_rewards_per_ride get_same_pickup_time
  simp only [if_neg h0, if_pos rfl, if_true, Nat.cast_zero]

/-- Branch reduction of get_next_state when the pickup location differs
from the current location. -/
theorem get_next_state_diff (C R : Nat) (tm : TimeMatrix) (l h d p q : Nat)
    (hp : 1 ≤ p) (hlp : l ≠ p) :
    get_next_state C R tm (l, h, d) (p, q) =
      (let tau_d := tm (l - 1) (p - 1) h d
       let rev := calc_revised_time_day (h + tau_d) d
       let tau_t := tm (p - 1) (q - 1) rev.1 rev.2
       let tend := calc_revised_time_day (rev.1 + tau_t) rev.2
       ((q, tend.1, tend.2),
        (R : Int) * (tau_t : Int) - (C : Int) * ((tau_t : Int) + (tau_d : Int)),
        tau_t + tau_d)) := by
  have h0 : ((p, q) : Nat × Nat) ≠ ((0, 0) : Nat × Nat) := by
    intro hc
    rw [Prod.ext_iff] at hc
    omega
  unfold get_next_state get_rewards_per_ride get_different_pickup_time
  simp only [if_neg h0, if_neg hlp]

/-- The comprehension over drop locations is a filter followed by pairing. -/
theorem filterMap_pair_eq (i : Nat) (l : List Nat) :
    (l.filterMap fun j => if i ≠ j then some (i, j) else none)
      = (l.filter fun j => i ≠ j).map fun j => (i, j) := by
  induction l with
  | nil => rfl
  | cons a l ih =>
    rw [List.filterMap_cons, List.filter_cons]
    by_cases hia : i ≠ a
    · rw [if_pos hia, if_pos (by simp [hia]), List.map_cons, ih]
    · rw [if_neg hia, if_neg (by simp [hia]), ih]

/-- Filtering one existing element out of a duplicate-free list shortens it
by exactly one. -/
theorem length_filter_ne (i : Nat) (l : List Nat) (hnd : l.Nodup) (hmem : i ∈ l) :
    (l.filter fun j => i ≠ j).length = l.length - 1 := by
  induction l with
  | nil => cases hmem
  | cons a l ih =>
    rcases List.mem_cons.mp hmem with rfl | hmem2
    · have hnotmem : i ∉ l := (List.nodup_cons.mp hnd).1
      have hkeep : l.filter (fun j => i ≠ j) = l := by
        rw [List.filter_eq_self]
        intro b hb
        simp only [ne_eq, decide_eq_true_eq]
        intro hc
        exact hnotmem (hc ▸ hb)
      simp [List.filter_cons, hkeep]
      intro b hb hc
      exact hnotmem (hc ▸ hb)
    · have hia : i ≠ a := by
        intro hc
        exact (List.nodup_cons.mp hnd).1 (hc ▸ hmem2)
      have hlen : 1 ≤ l.length := List.length_pos.mpr (List.ne_nil_of_mem hmem2)
      have ihl := ih (List.nodup_cons.mp hnd).2 hmem2
      rw [List.filter_cons, if_pos (by simp [hia]), List.length_cons, List.length_cons, ihl]
      omega

/-- Each pickup location in range contributes exactly m - 1 drop pairs. -/
theorem inner_length (m i : Nat) (hi : 1 ≤ i) (him : i ≤ m) :
    ((List.range' 1 m).filterMap fun j => if i ≠ j then some (i, j) else none).length
      = m - 1 := by
  rw [filterMap_pair_eq, List.length_map, length_filter_ne]
  · rw [List.length_range']
  · exact List.nodup_range' 1 m
  · rw [List.mem_range'_1]
    omega

/-- The non-sentinel part of the action space has m * (m - 1) elements. -/
theorem action_space_core_length (m : Nat) :
    ((List.range' 1 m).flatMap fun i =>
      (List.range' 1 m).filterMap fun j => if i ≠ j then some (i, j) else none).length
      = m * (m - 1) := by
  rw [List.length_flatMap]
  simp only [Function.comp_def]
  have hmap : ((List.range' 1 m).map fun i =>
      ((List.range' 1 m).filterMap fun j => if i ≠ j then some (i, j) else none).length)
      = List.replicate m (m - 1) := by
    rw [List.eq_replicate_iff]
    refine ⟨by rw [List.length_map, List.length_range'], ?_⟩
    intro b hb
    rw [List.mem_map] at hb
    obtain ⟨i, hi, rfl⟩ := hb
    rw [List.mem_range'_1] at hi
    exact inner_length m i hi.1 (by omega)
  rw [hmap, List.sum_replicate, smul_eq_mul]

/-- Every non-sentinel element of the action space is a valid ride. -/
theorem action_space_core_mem (m : Nat) (a : Nat × Nat)
    (ha : a ∈ (List.range' 1 m).flatMap fun i =>
      (List.range' 1 m).filterMap fun j => if i ≠ j then some (i, j) else none) :
    1 ≤ a.1 ∧ a.1 ≤ m ∧ 1 ≤ a.2 ∧ a.2 ≤ m ∧ a.1 ≠ a.2 := by
  rw [List.mem_flatMap] at ha
  obtain ⟨i, hi, hmem⟩ := ha
  rw [List.mem_filterMap] at hmem
  obtain ⟨j, hj, hij⟩ := hmem
  rw [List.mem_range'_1] at hi hj
  by_cases hne : i ≠ j
  · rw [if_pos hne] at hij
    obtain rfl : (i, j) = a := by injection hij
    exact ⟨hi.1, by omega, hj.1, by omega, hne⟩
  · rw [if_neg hne] at hij
    cases hij

/-- np_index rejects exactly the indices outside the extended NumPy range
[-n, n). -/
theorem np_index_eq_none_iff (n : Nat) (i : Int) :
    np_index n i = none ↔ ¬ (-(n : Int) ≤ i ∧ i < (n : Int)) := by
  unfold np_index
  split
  · rename_i h1
    simp only [reduceCtorEq, false_iff, not_not]
    omega
  · split
    · rename_i h1 h2
      simp only [reduceCtorEq, false_iff, not_not]
      omega
    · rename_i h1 h2
      simp only [true_iff]
      omega

/-- table_lookup fails exactly when one of its four axis indices is
rejected. -/
theorem table_lookup_eq_none_iff (m : Nat) (tm : TimeMatrix) (f t h d : Int) :
    table_lookup m tm f t h d = none ↔
      (np_index m (f - 1) = none ∨ np_index m (t - 1) = none ∨
       np_index 24 h = none ∨ np_index 7 d = none) := by
  unfold table_lookup
  cases h1 : np_index m (f - 1) <;> cases h2 : np_index m (t - 1) <;>
    cases h3 : np_index 24 h <;> cases h4 : np_index 7 d <;>
      simp [Option.bind]

/-- An access with all four indices inside their declared domains succeeds
and returns the corresponding matrix entry. -/
theorem table_lookup_in_domain (m : Nat) (tm : TimeMatrix) (f t h d : Nat)
    (hf : 1 ≤ f) (hfm : f ≤ m) (ht : 1 ≤ t) (htm2 : t ≤ m) (hh : h ≤ 23) (hd : d ≤ 6) :
    table_lookup m tm (f : Int) (t : Int) (h : Int) (d : Int) = some (lookup tm f t h d) := by
  unfold table_lookup np_index lookup
  rw [if_pos (by omega), if_pos (by omega), if_pos (by omega), if_pos (by omega)]
  have e1 : ((f : Int) - 1).toNat = f - 1 := by omega
  have e2 : ((t : Int) - 1).toNat = t - 1 := by omega
  have e3 : (h : Int).toNat = h := by omega
  have e4 : (d : Int).toNat = d := by omega
  simp [e1, e2, e3, e4]

/-- C5: TimeWheel.advance(hour, day, delta_hours), for every hour in
[0,23], day in [0,6] and 0 ≤ delta_hours < 24, returns (hour + delta, day)
when hour + delta < 24 and (hour + delta - 24, (day + 1) mod 7) otherwise;
in particular advance(23, 6, 1) = (0, 0), advance(20, 3, 5) = (1, 4), and
advance(h, d, 0) = (h, d) for all valid h, d. In the source the advance is
calc_revised_time_day applied to the summed hour. -/
theorem calc_revised_time_day_spec :
    (∀ h d delta : Nat, h ≤ 23 → d ≤ 6 → delta < 24 →
      calc_revised_time_day (h + delta) d =
        if h + delta < 24 then (h + delta, d) else (h + delta - 24, (d + 1) % 7)) ∧
    calc_revised_time_day (23 + 1) 6 = (0, 0) ∧
    calc_revised_time_day (20 + 5) 3 = (1, 4) ∧
    ∀ h d : Nat, h ≤ 23 → d ≤ 6 → calc_revised_time_day (h + 0) d = (h, d) := by
  refine ⟨?_, by decide, by decide, ?_⟩
  · intro h d delta hh hd hdelta
    rw [← advance_eq_calc h d delta hd]
    unfold advance
    split <;> split <;> first | rfl | omega
  · intro h d hh hd
    unfold calc_revised_time_day
    rw [if_neg (by omega)]
    exact rfl

/-- Witness for C5 at hour 5, day 2, delta 10. -/
theorem calc_revised_time_day_spec_witness :
    calc_revised_time_day (5 + 10) 2 =
      if 5 + 10 < 24 then (5 + 10, 2) else (5 + 10 - 24, (2 + 1) % 7) :=
  calc_revised_time_day_spec.1 5 2 10 (by decide) (by decide) (by decide)

/-- C6 counterexample: the claim says the lookup fails whenever an index is
outside its declared domain and never silently wraps. With m = 5 the
from-location 0 is outside the declared domain [1, 5], yet indexing the
matrix whose entry at row i is i succeeds and returns the entry of row
index 4 - the last row, reached by NumPy negative-index wrapping of the
0-based index -1. -/
theorem table_lookup_counterexample :
    ¬ (1 ≤ (0 : Int)) ∧
    table_lookup 5 (fun i _ _ _ => i) 0 2 5 3 ≠ none ∧
    table_lookup 5 (fun i _ _ _ => i) 0 2 5 3 = some 4 := by decide

/-- C6 (amended): TravelTimeTable.lookup fails with an out-of-range error
exactly when one of its indices is outside NumPy's extended indexing range
(from or to outside [1-m, m], hour outside [-24, 23], day outside [-7, 6]);
an index below its declared domain but still inside that extended range is
silently wrapped to count from the end of the axis instead of failing. -/
theorem table_lookup_fails_iff (m : Nat) (tm : TimeMatrix) (f t h d : Int) :
    table_lookup m tm f t h d = none ↔
      ¬ ((1 - (m : Int) ≤ f ∧ f ≤ (m : Int)) ∧ (1 - (m : Int) ≤ t ∧ t ≤ (m : Int)) ∧
         ((-24 : Int) ≤ h ∧ h ≤ 23) ∧ ((-7 : Int) ≤ d ∧ d ≤ 6)) := by
  rw [table_lookup_eq_none_iff, np_index_eq_none_iff, np_index_eq_none_iff,
    np_index_eq_none_iff, np_index_eq_none_iff]
  omega

/-- C7 counterexample: with m = 6 configured locations, the state location
6 is inside the declared range [1, m], but the hardcoded 5-entry rate list
has no entry for it, so determining the Poisson rate raises an index
error. -/
theorem poisson_rate_counterexample :
    1 ≤ 6 ∧ 6 ≤ 6 ∧ poisson_rate 6 = none := by decide

/-- C7 (amended): the hardcoded rate list has exactly 5 entries, so for
every configured location count m up to 5 and every state location in
[1, m] the rate lookup succeeds; for larger m a location above 5 has no
entry. -/
theorem poisson_rate_spec (m loc : Nat) (hm : m ≤ 5) (h1 : 1 ≤ loc) (h2 : loc ≤ m) :
    distribution_lambda.length = 5 ∧ (poisson_rate loc).isSome := by
  refine ⟨rfl, ?_⟩
  have h5 : loc ≤ 5 := le_trans h2 hm
  interval_cases loc <;> decide

/-- Witness for C7 (amended) at m = 5, location 3. -/
theorem poisson_rate_spec_witness :
    distribution_lambda.length = 5 ∧ (poisson_rate 3).isSome :=
  poisson_rate_spec 5 3 (by decide) (by decide) (by decide)

/-- C3: for every state within its declared ranges, the sentinel action
(0,0) yields reward -C, elapsed time 1, and the next state keeps the
location and advances the clock by one hour; the travel-time table is never
consulted on this branch (the result is identical under any two tables). -/
theorem step_sentinel_spec (C R m : Nat) (tm tm2 : TimeMatrix) (l h d : Nat)
    (hl1 : 1 ≤ l) (hlm : l ≤ m) (hh : h ≤ 23) (hd : d ≤ 6) :
    get_next_state C R tm (l, h, d) (0, 0) = ((l, advance h d 1), -(C : Int), 1) ∧
    get_next_state C R tm (l, h, d) (0, 0) = get_next_state C R tm2 (l, h, d) (0, 0) := by
  constructor
  · rw [get_next_state_sentinel, advance_eq_calc h d 1 hd]
  · rw [get_next_state_sentinel, get_next_state_sentinel]

/-- Witness for C3 at state (1, 8, 1) with C = 5, R = 9. -/
theorem step_sentinel_spec_witness :
    get_next_state 5 9 (fun _ _ _ _ => 0) (1, 8, 1) (0, 0) =
      ((1, advance 8 1 1), -(5 : Int), 1) :=
  (step_sentinel_spec 5 9 2 (fun _ _ _ _ => 0) (fun _ _ _ _ => 7) 1 8 1
    (by decide) (by decide) (by decide) (by decide)).1

/-- C2: for every state within its declared ranges and every non-sentinel
action with pickup equal to the current location, step looks up the trip
time at the current clock, moves to the drop location with the clock
advanced by the trip time, and returns elapsed time equal to the trip time
and reward (R - C) times the trip time; in particular, under any table with
lookup(1,3,8,1) = 6 and with C = 5, R = 9, step((1,8,1),(1,3)) returns
next state (3,14,1), reward 24 and elapsed time 6. -/
theorem step_same_pickup_spec (m C R : Nat) (tm : TimeMatrix) (l h d q : Nat)
    (hl1 : 1 ≤ l) (hlm : l ≤ m) (hh : h ≤ 23) (hd : d ≤ 6)
    (hq1 : 1 ≤ q) (hqm : q ≤ m) (hlq : l ≠ q) :
    (get_next_state C R tm (l, h, d) (l, q) =
      ((q, advance h d (lookup tm l q h d)),
        ((R : Int) - (C : Int)) * (lookup tm l q h d : Int),
        lookup tm l q h d)) ∧
    ∀ tm2 : TimeMatrix, tm2 0 2 8 1 = 6 →
      get_next_state 5 9 tm2 (1, 8, 1) (1, 3) = ((3, 14, 1), 24, 6) := by
  constructor
  · rw [get_next_state_same C R tm l h d q hl1, advance_eq_calc h d _ hd]
    unfold lookup
    refine Prod.ext rfl (Prod.ext ?_ rfl)
    push_cast
    ring
  · intro tm2 htm2
    rw [get_next_state_same 5 9 tm2 1 8 1 3 (by decide)]
    norm_num [htm2, calc_revised_time_day]

/-- Witness for C2 with the constant table of entry 6. -/
theorem step_same_pickup_spec_witness :
    get_next_state 5 9 (fun _ _ _ _ => 6) (1, 8, 1) (1, 3) =
      ((3, advance 8 1 (lookup (fun _ _ _ _ => 6) 1 3 8 1)),
        ((9 : Int) - (5 : Int)) * (lookup (fun _ _ _ _ => 6) 1 3 8 1 : Int),
        lookup (fun _ _ _ _ => 6) 1 3 8 1) :=
  (step_same_pickup_spec 5 5 9 (fun _ _ _ _ => 6) 1 8 1 3
    (by decide) (by decide) (by decide) (by decide) (by decide) (by decide) (by decide)).1

/-- C1: for every state within its declared ranges and every non-sentinel
action whose pickup differs from the current location, step looks up the
deadhead time at the current clock, advances the clock by it, looks up the
trip time at the clock at pickup time (not the original clock), and returns
the drop location with the clock advanced again by the trip time, elapsed
time equal to trip time plus deadhead time, and reward R times the trip
time minus C times their sum. -/
theorem step_different_pickup_spec (m C R : Nat) (tm : TimeMatrix) (l h d p q : Nat)
    (hl1 : 1 ≤ l) (hlm : l ≤ m) (hh : h ≤ 23) (hd : d ≤ 6)
    (hp1 : 1 ≤ p) (hpm : p ≤ m) (hq1 : 1 ≤ q) (hqm : q ≤ m)
    (hpq : p ≠ q) (hlp : l ≠ p) :
    get_next_state C R tm (l, h, d) (p, q) =
      ((q, advance (advance h d (lookup tm l p h d)).1 (advance h d (lookup tm l p h d)).2
            (lookup tm p q (advance h d (lookup tm l p h d)).1
              (advance h d (lookup tm l p h d)).2)),
        (R : Int) * (lookup tm p q (advance h d (lookup tm l p h d)).1
            (advance h d (lookup tm l p h d)).2 : Int)
          - (C : Int) * ((lookup tm p q (advance h d (lookup tm l p h d)).1
              (advance h d (lookup tm l p h d)).2 : Int) + (lookup tm l p h d : Int)),
        lookup tm p q (advance h d (lookup tm l p h d)).1 (advance h d (lookup tm l p h d)).2
          + lookup tm l p h d) := by
  rw [get_next_state_diff C R tm l h d p q hp1 hlp]
  simp only [lookup]
  rw [advance_eq_calc h d _ hd]
  rw [advance_eq_calc _ _ _ (calc_day_le (h + tm (l - 1) (p - 1) h d) d hd)]

/-- Witness for C1 with the constant table of entry 5, crossing midnight
and the end of the week. -/
theorem step_different_pickup_spec_witness :
    get_next_state 5 9 (fun _ _ _ _ => 5) (1, 22, 6) (2, 3) =
      ((3, 8, 0), 9 * 5 - 5 * (5 + 5), 10) := by
  have h := step_different_pickup_spec 5 5 9 (fun _ _ _ _ => 5) 1 22 6 2 3
    (by decide) (by decide) (by decide) (by decide) (by decide) (by decide)
    (by decide) (by decide) (by decide) (by decide)
  exact h.trans (by decide)

/-- C4: for every state within its declared ranges, every valid action
(sentinel or a ride with in-range distinct pickup and drop), and every
table whose entries are all below 24, the next state returned by step has
its location in [1, m], hour in [0, 23] and day in [0, 6], jointly
normalized. -/
theorem step_preserves_ranges (m C R : Nat) (tm : TimeMatrix) (l h d p q : Nat)
    (hl1 : 1 ≤ l) (hlm : l ≤ m) (hh : h ≤ 23) (hd : d ≤ 6)
    (ha : (p, q) = ((0, 0) : Nat × Nat) ∨ (1 ≤ p ∧ p ≤ m ∧ 1 ≤ q ∧ q ≤ m ∧ p ≠ q))
    (htm : ∀ i j hr dy, tm i j hr dy < 24) :
    1 ≤ (get_next_state C R tm (l, h, d) (p, q)).1.1 ∧
    (get_next_state C R tm (l, h, d) (p, q)).1.1 ≤ m ∧
    (get_next_state C R tm (l, h, d) (p, q)).1.2.1 ≤ 23 ∧
    (get_next_state C R tm (l, h, d) (p, q)).1.2.2 ≤ 6 := by
  rcases ha with h0 | ⟨hp1, hpm, hq1, hqm, hpq⟩
  · obtain ⟨rfl, rfl⟩ : p = 0 ∧ q = 0 := by
      rw [Prod.ext_iff] at h0
      exact ⟨h0.1, h0.2⟩
    rw [get_next_state_sentinel]
    exact ⟨hl1, hlm, calc_hour_le _ _ (by omega), calc_day_le _ _ hd⟩
  · by_cases hlp : l = p
    · subst hlp
      rw [get_next_state_same C R tm l h d q hl1]
      refine ⟨hq1, hqm, ?_, ?_⟩
      · exact calc_hour_le _ _ (by have := htm (l - 1) (q - 1) h d; omega)
      · exact calc_day_le _ _ hd
    · rw [get_next_state_diff C R tm l h d p q hp1 hlp]
      dsimp only
      have h2h : (calc_revised_time_day (h + tm (l - 1) (p - 1) h d) d).1 ≤ 23 :=
        calc_hour_le _ _ (by have := htm (l - 1) (p - 1) h d; omega)
      have h2d : (calc_revised_time_day (h + tm (l - 1) (p - 1) h d) d).2 ≤ 6 :=
        calc_day_le _ _ hd
      refine ⟨hq1, hqm, ?_, ?_⟩
      · exact calc_hour_le _ _
          (by have := htm (p - 1) (q - 1) (calc_revised_time_day (h + tm (l - 1) (p - 1) h d) d).1
                (calc_revised_time_day (h + tm (l - 1) (p - 1) h d) d).2
              omega)
      · exact calc_day_le _ _ h2d

/-- Witness for C4 at a ride action with a table of constant entry 7. -/
theorem step_preserves_ranges_witness :
    1 ≤ (get_next_state 5 9 (fun _ _ _ _ => 7) (1, 8, 1) (2, 3)).1.1 ∧
    (get_next_state 5 9 (fun _ _ _ _ => 7) (1, 8, 1) (2, 3)).1.1 ≤ 5 ∧
    (get_next_state 5 9 (fun _ _ _ _ => 7) (1, 8, 1) (2, 3)).1.2.1 ≤ 23 ∧
    (get_next_state 5 9 (fun _ _ _ _ => 7) (1, 8, 1) (2, 3)).1.2.2 ≤ 6 :=
  step_preserves_ranges 5 5 9 (fun _ _ _ _ => 7) 1 8 1 2 3
    (by decide) (by decide) (by decide) (by decide) (Or.inr (by decide))
    (fun _ _ _ _ => by show 7 < 24; decide)

/-- C9: for every m at least 2, the action space has length m(m-1) + 1,
its last element is the sentinel (0,0), its non-sentinel prefix is exactly
the generator iterating pickup ascending and drop ascending skipping equal
pairs, and every non-sentinel element is a valid ride with both components
in [1, m] and distinct. -/
theorem initialize_action_space_spec (m : Nat) (hm : 2 ≤ m) :
    (initialize_action_space m).length = m * (m - 1) + 1 ∧
    (initialize_action_space m).getLast? = some (0, 0) ∧
    (initialize_action_space m).dropLast =
      ((List.range' 1 m).flatMap fun i =>
        (List.range' 1 m).filterMap fun j => if i ≠ j then some (i, j) else none) ∧
    ∀ a ∈ (initialize_action_space m).dropLast,
      1 ≤ a.1 ∧ a.1 ≤ m ∧ 1 ≤ a.2 ∧ a.2 ≤ m ∧ a.1 ≠ a.2 := by
  unfold initialize_action_space
  refine ⟨?_, List.getLast?_concat .., List.dropLast_concat .., ?_⟩
  · rw [List.length_append, action_space_core_length]
    rfl
  · intro a ha
    rw [List.dropLast_concat] at ha
    exact action_space_core_mem m a ha

/-- Witness for C9 at m = 3. -/
theorem initialize_action_space_spec_witness :
    (initialize_action_space 3).length = 3 * (3 - 1) + 1 ∧
    (initialize_action_space 3).getLast? = some (0, 0) :=
  ⟨(initialize_action_space_spec 3 (by decide)).1,
   (initialize_action_space_spec 3 (by decide)).2.1⟩

/-- C8: for every state and every Poisson outcome n (modelled as an
input), the sampler returns selected indices of length min(n, 15), each
index inside [0, m(m-1)) - the action space without its sentinel - and
selected actions of length min(n, 15) + 1 ending with the sentinel (0,0);
the sampled request count never exceeds 15. -/
theorem get_requests_per_location_spec (m n : Nat) (rng : Nat → Nat) (hm : 2 ≤ m) :
    ((get_requests_per_location (initialize_action_space m) n rng).1.length = min n 15) ∧
    (∀ i ∈ (get_requests_per_location (initialize_action_space m) n rng).1,
      i < m * (m - 1)) ∧
    ((get_requests_per_location (initialize_action_space m) n rng).2.length
      = min n 15 + 1) ∧
    ((get_requests_per_location (initialize_action_space m) n rng).2.getLast?
      = some (0, 0)) ∧
    ((get_requests_per_location (initialize_action_space m) n rng).1.length ≤ 15) := by
  have hdrop : (initialize_action_space m).dropLast.length = m * (m - 1) := by
    unfold initialize_action_space
    rw [List.dropLast_concat, action_space_core_length]
  have hpos : 0 < m * (m - 1) :=
    Nat.mul_pos (by omega) (by omega)
  unfold get_requests_per_location
  dsimp only
  refine ⟨?_, ?_, ?_, ?_, ?_⟩
  · rw [List.length_map, List.length_range]
    split <;> omega
  · intro i hi
    rw [List.mem_map] at hi
    obtain ⟨k, hk, rfl⟩ := hi
    rw [hdrop]
    exact Nat.mod_lt _ hpos
  · rw [List.length_append, List.length_map, List.length_map, List.length_range]
    simp only [List.length_singleton]
    split <;> omega
  · exact List.getLast?_concat ..
  · rw [List.length_map, List.length_range]
    split <;> omega

/-- Witness for C8 at m = 2, n = 20 and the identity draw stream. -/
theorem get_requests_per_location_spec_witness :
    ((get_requests_per_location (initialize_action_space 2) 20 (fun k => k)).1.length
      = min 20 15) ∧
    ((get_requests_per_location (initialize_action_space 2) 20 (fun k => k)).2.getLast?
      = some (0, 0)) :=
  ⟨(get_requests_per_location_spec 2 20 (fun k => k) (by decide)).1,
   (get_requests_per_location_spec 2 20 (fun k => k) (by decide)).2.2.2.1⟩

/-- C10: the reward component of step equals the standalone reward
computation, and the reward computation is deterministic - identical
table, state and action inputs give identical values. -/
theorem step_reward_refines (C R : Nat) (tm tm2 : TimeMatrix) (s s2 : Nat × Nat × Nat)
    (a a2 : Nat × Nat) :
    ((get_next_state C R tm s a).2.1 = get_rewards_per_ride C R tm s a) ∧
    (tm = tm2 → s = s2 → a = a2 →
      get_rewards_per_ride C R tm s a = get_rewards_per_ride C R tm2 s2 a2) := by
  constructor
  · unfold get_next_state
    dsimp only
    split
    · rfl
    · split <;> rfl
  · intro h1 h2 h3
    rw [h1, h2, h3]

/-- Witness for C10 at a concrete table, state and action. -/
theorem step_reward_refines_witness :
    (get_next_state 5 9 (fun _ _ _ _ => 3) (1, 8, 1) (1, 2)).2.1 =
      get_rewards_per_ride 5 9 (fun _ _ _ _ => 3) (1, 8, 1) (1, 2) :=
  (step_reward_refines 5 9 (fun _ _ _ _ => 3) (fun _ _ _ _ => 3) (1, 8, 1) (1, 8, 1)
    (1, 2) (1, 2)).1
